import Mathlib

/-!
Verification of the assassin party-game core (src/db.js, src/server.js).

The data model and operations below are a shallow embedding of the
repository's SQLite-backed store (`src/db.js`) and the state-changing
HTTP routes (`src/server.js`).  Tables become lists kept in insertion
order (SQLite rowid / created_at order); `crypto.randomBytes` tokens and
`Math.random` draws become explicit parameters (oracles), so every
theorem quantifying over them covers every randomness outcome.
HTML rendering and SMS delivery are out of scope (pure I/O shell).
-/

namespace Assassin

/-- Game status (`games.status`): `'waiting' | 'active' | 'finished'`. -/
inductive GameStatus where
  | waiting
  | active
  | finished
deriving DecidableEq, Repr

/-- Kill-request status: `'pending' | 'confirmed' | 'rejected'`. -/
inductive KRStatus where
  | pending
  | confirmed
  | rejected
deriving DecidableEq, Repr

/-- A row of the `games` table. -/
structure Game where
  id : Nat
  status : GameStatus
  adminToken : Nat
deriving DecidableEq, Repr

/-- A row of the `players` table. -/
structure Player where
  id : Nat
  game_id : Nat
  token : Nat
  target_id : Option Nat
  is_alive : Bool
  kills : Nat
  current_task_id : Option Nat
deriving DecidableEq, Repr

/-- A row of the `kill_requests` table. -/
structure KillRequest where
  id : Nat
  killer_id : Nat
  victim_id : Nat
  status : KRStatus
deriving DecidableEq, Repr

/-- A row of the `tasks` table (description text is irrelevant to the logic). -/
structure Task where
  id : Nat
  game_id : Nat
deriving DecidableEq, Repr

/-- The whole SQLite database.  Lists are in insertion (rowid) order;
the `next*Id` counters model AUTOINCREMENT primary keys. -/
structure DB where
  games : List Game
  players : List Player
  killRequests : List KillRequest
  tasks : List Task
  nextPlayerId : Nat
  nextKillRequestId : Nat
  nextTaskId : Nat
deriving DecidableEq, Repr

/-- The empty database. -/
def DB.empty : DB :=
  { games := [], players := [], killRequests := [], tasks := []
    nextPlayerId := 1, nextKillRequestId := 1, nextTaskId := 1 }

/-- `createGame` (db.js): inserts a game with status `'waiting'`.
The random id and admin token are oracle parameters. -/
def createGame (db : DB) (gid adminToken : Nat) : DB :=
  { db with games := db.games ++ [{ id := gid, status := .waiting, adminToken := adminToken }] }

/-- `getGameById` (db.js): `SELECT * FROM games WHERE id = ?`. -/
def getGameById (db : DB) (gid : Nat) : Option Game :=
  db.games.find? (fun g => g.id == gid)

/-- `getGameByAdminToken` (db.js). -/
def getGameByAdminToken (db : DB) (tok : Nat) : Option Game :=
  db.games.find? (fun g => g.adminToken == tok)

/-- `updateGameStatus` (db.js): `UPDATE games SET status = ? WHERE id = ?`. -/
def updateGameStatus (db : DB) (gid : Nat) (st : GameStatus) : DB :=
  { db with games := db.games.map (fun g => if g.id == gid then { g with status := st } else g) }

/-- `addTask` (db.js). -/
def addTask (db : DB) (gid : Nat) : DB × Task :=
  let t : Task := { id := db.nextTaskId, game_id := gid }
  ({ db with tasks := db.tasks ++ [t], nextTaskId := db.nextTaskId + 1 }, t)

/-- `getTasksByGame` (db.js). -/
def getTasksByGame (db : DB) (gid : Nat) : List Task :=
  db.tasks.filter (fun t => t.game_id == gid)

/-- `getRandomTask` (db.js): `tasks[Math.floor(Math.random() * tasks.length)]`,
with the random draw modelled by `choice % length`; `none` on empty pool. -/
def getRandomTask (db : DB) (gid : Nat) (choice : Nat) : Option Task :=
  let ts := getTasksByGame db gid
  ts[choice % ts.length]?

/-- `setPlayerTask` (db.js): `UPDATE players SET current_task_id = ? WHERE id = ?`. -/
def setPlayerTask (db : DB) (pid : Nat) (taskId : Nat) : DB :=
  { db with players := db.players.map fun p =>
      if p.id == pid then { p with current_task_id := some taskId } else p }

/-- `addPlayer` (db.js): inserts a live player with no target; the access
token is an oracle parameter, the id comes from AUTOINCREMENT. -/
def addPlayer (db : DB) (gid : Nat) (token : Nat) : DB × Nat :=
  let pid := db.nextPlayerId
  ({ db with
      players := db.players ++
        [{ id := pid, game_id := gid, token := token, target_id := none,
           is_alive := true, kills := 0, current_task_id := none }],
      nextPlayerId := pid + 1 }, pid)

/-- `getPlayerByToken` (db.js). -/
def getPlayerByToken (db : DB) (tok : Nat) : Option Player :=
  db.players.find? (fun p => p.token == tok)

/-- `getPlayerById` (db.js). -/
def getPlayerById (db : DB) (pid : Nat) : Option Player :=
  db.players.find? (fun p => p.id == pid)

/-- `getPlayersByGame` (db.js): `WHERE game_id = ? ORDER BY created_at`
(insertion order). -/
def getPlayersByGame (db : DB) (gid : Nat) : List Player :=
  db.players.filter (fun p => p.game_id == gid)

/-- `getAlivePlayers` (db.js): `WHERE game_id = ? AND is_alive = 1`. -/
def getAlivePlayers (db : DB) (gid : Nat) : List Player :=
  db.players.filter (fun p => p.game_id == gid && p.is_alive)

/-- `setPlayerTarget` (db.js): `UPDATE players SET target_id = ? WHERE id = ?`. -/
def setPlayerTarget (db : DB) (pid : Nat) (tid : Option Nat) : DB :=
  { db with players := db.players.map fun p =>
      if p.id == pid then { p with target_id := tid } else p }

/-- `killPlayer` (db.js): `UPDATE players SET is_alive = 0, target_id = NULL WHERE id = ?`. -/
def killPlayer (db : DB) (pid : Nat) : DB :=
  { db with players := db.players.map fun p =>
      if p.id == pid then { p with is_alive := false, target_id := none } else p }

/-- `incrementKills` (db.js): `UPDATE players SET kills = kills + 1 WHERE id = ?`. -/
def incrementKills (db : DB) (pid : Nat) : DB :=
  { db with players := db.players.map fun p =>
      if p.id == pid then { p with kills := p.kills + 1 } else p }

/-- `createKillRequest` (db.js): returns an existing `pending` request for
the same (killer, victim) pair, otherwise inserts a fresh one. -/
def createKillRequest (db : DB) (killerId victimId : Nat) : DB × KillRequest :=
  match db.killRequests.find?
      (fun r => r.killer_id == killerId && r.victim_id == victimId && r.status == KRStatus.pending) with
  | some existing => (db, existing)
  | none =>
    let r : KillRequest :=
      { id := db.nextKillRequestId, killer_id := killerId, victim_id := victimId, status := .pending }
    ({ db with killRequests := db.killRequests ++ [r],
               nextKillRequestId := db.nextKillRequestId + 1 }, r)

/-- `getKillRequestById` (db.js). -/
def getKillRequestById (db : DB) (rid : Nat) : Option KillRequest :=
  db.killRequests.find? (fun r => r.id == rid)

/-- `updateKillRequestStatus` (db.js): `UPDATE kill_requests SET status = ? WHERE id = ?`
— note: no guard on the current status. -/
def updateKillRequestStatus (db : DB) (rid : Nat) (st : KRStatus) : DB :=
  { db with killRequests := db.killRequests.map fun r =>
      if r.id == rid then { r with status := st } else r }

/-- One swap `[a[i], a[j]] = [a[j], a[i]]` on a list; identity when an
index is out of range (never happens in the Fisher-Yates loop). -/
def swapList (l : List α) (i j : Nat) : List α :=
  match l[i]?, l[j]? with
  | some a, some b => (l.set i b).set j a
  | _, _ => l

/-- The loop body of `shuffleArray` (db.js): counts `i` down from
`length - 1` to `1`, swapping index `i` with a random `j ≤ i`.
The random draws `Math.floor(Math.random() * (i + 1))` are modelled by
the oracle list `js`, reduced mod `i + 1` to stay in range. -/
def fisherYatesAux (js : List Nat) (l : List α) : Nat → List α
  | 0 => l
  | i+1 => fisherYatesAux js.tail (swapList l (i+1) (js.headD 0 % (i+2))) i

/-- `shuffleArray` (db.js): Fisher-Yates shuffle of a copy of the array. -/
def shuffleArray (js : List Nat) (l : List α) : List α :=
  fisherYatesAux js l (l.length - 1)

/-- One iteration of the `assignTargets` loop (db.js): link
`shuffled[i] → shuffled[(i+1) % n]` and attach a random task. -/
def assignStep (gid : Nat) (shuffled : List Player) (tcs : List Nat) (db : DB) (i : Nat) : DB :=
  match shuffled[i]?, shuffled[(i+1) % shuffled.length]? with
  | some p, some q =>
    let db1 := setPlayerTarget db p.id (some q.id)
    match getRandomTask db1 gid (tcs.getD i 0) with
    | some t => setPlayerTask db1 p.id t.id
    | none => db1
  | _, _ => db

/-- `assignTargets` (db.js): fails (returns `false`) with fewer than two
players, otherwise shuffles the game's players and links them in a ring,
assigning each a random task. -/
def assignTargets (db : DB) (gid : Nat) (js tcs : List Nat) : DB × Bool :=
  let players := getPlayersByGame db gid
  if players.length < 2 then (db, false)
  else
    let shuffled := shuffleArray js players
    ((List.range shuffled.length).foldl (assignStep gid shuffled tcs) db, true)

/-- The record returned by a successful `processKill` (db.js):
`killer`/`victim` are the pre-update rows, `newTarget` is looked up
after all updates. -/
structure KillResult where
  killer : Player
  victim : Player
  newTarget : Option Player
  newTask : Option Task
deriving DecidableEq, Repr

/-- `processKill` (db.js): the shared resolution step.  Re-reads the
request; no-op returning `none` unless it is `pending` and both player
rows exist.  Otherwise: marks `confirmed`, gives the killer the victim's
former target, assigns the killer a new random task, increments the
killer's kills, marks the victim dead, and sets the game `finished`
when exactly one player of the killer's game remains alive. -/
def processKill (db : DB) (tc : Nat) (killRequestId : Nat) : DB × Option KillResult :=
  match getKillRequestById db killRequestId with
  | none => (db, none)
  | some request =>
    if request.status ≠ KRStatus.pending then (db, none)
    else
      match getPlayerById db request.killer_id, getPlayerById db request.victim_id with
      | some killer, some victim =>
        let db1 := updateKillRequestStatus db killRequestId .confirmed
        let db2 := setPlayerTarget db1 killer.id victim.target_id
        let newTask := getRandomTask db2 killer.game_id tc
        let db3 := match newTask with
          | some t => setPlayerTask db2 killer.id t.id
          | none => db2
        let db4 := incrementKills db3 killer.id
        let db5 := killPlayer db4 victim.id
        let db6 := if (getAlivePlayers db5 killer.game_id).length = 1
                   then updateGameStatus db5 killer.game_id .finished else db5
        (db6, some { killer := killer, victim := victim,
                     newTarget := victim.target_id.bind (getPlayerById db6),
                     newTask := newTask })
      | _, _ => (db, none)

/-- Errors of the start route, refining its two 400 responses:
`notFound`/`invalidState` for `!game || game.status !== 'waiting'`
(split by which disjunct fails), `insufficientPlayers` for
`players.length < 2`. -/
inductive StartError where
  | notFound
  | invalidState
  | insufficientPlayers
deriving DecidableEq, Repr

/-- `POST /admin/:token/start` (server.js): validates, then
`assignTargets` and status `'active'`.  SMS sending omitted. -/
def adminStart (db : DB) (tok : Nat) (js tcs : List Nat) : DB × Except StartError Unit :=
  match getGameByAdminToken db tok with
  | none => (db, .error .notFound)
  | some game =>
    if game.status ≠ GameStatus.waiting then (db, .error .invalidState)
    else if (getPlayersByGame db game.id).length < 2 then (db, .error .insufficientPlayers)
    else
      let db1 := (assignTargets db game.id js tcs).1
      (updateGameStatus db1 game.id .active, .ok ())

/-- `POST /play/:token/kill` (server.js): a live player with a target in
an active game files a kill request against their target; `none` on any
failed precondition (state unchanged). -/
def playKill (db : DB) (tok : Nat) : DB × Option KillRequest :=
  match getPlayerByToken db tok with
  | none => (db, none)
  | some player =>
    if !player.is_alive then (db, none)
    else match player.target_id with
      | none => (db, none)
      | some tid =>
        match getPlayerById db tid, getGameById db player.game_id with
        | some victim, some game =>
          if game.status ≠ GameStatus.active then (db, none)
          else
            let res := createKillRequest db player.id victim.id
            (res.1, some res.2)
        | _, _ => (db, none)

/-- `POST /play/:token/confirm-death/:killId` (server.js): the named
victim confirms a pending request; delegates to `processKill`. -/
def confirmDeath (db : DB) (tok killId tc : Nat) : DB × Option KillResult :=
  match getPlayerByToken db tok, getKillRequestById db killId with
  | some player, some kr =>
    if kr.victim_id = player.id ∧ kr.status = KRStatus.pending then processKill db tc killId
    else (db, none)
  | _, _ => (db, none)

/-- `POST /admin/:token/approve/:killId` (server.js): any admin match
delegates straight to `processKill`. -/
def adminApprove (db : DB) (tok killId tc : Nat) : DB × Option KillResult :=
  match getGameByAdminToken db tok with
  | none => (db, none)
  | some _ => processKill db tc killId

/-- `POST /admin/:token/reject/:killId` (server.js): any admin match
sets the request status to `'rejected'` unconditionally. -/
def adminReject (db : DB) (tok killId : Nat) : DB × Bool :=
  match getGameByAdminToken db tok with
  | none => (db, false)
  | some _ => (updateKillRequestStatus db killId .rejected, true)

/-- The state-changing public operations (server.js routes). -/
inductive Op where
  | start (tok : Nat) (js tcs : List Nat)
  | submit (tok : Nat)
  | confirmVictim (tok killId tc : Nat)
  | approve (tok killId tc : Nat)
  | reject (tok killId : Nat)
deriving DecidableEq, Repr

/-- Effect of one public operation on the database. -/
def applyOp (db : DB) : Op → DB
  | .start tok js tcs => (adminStart db tok js tcs).1
  | .submit tok => (playKill db tok).1
  | .confirmVictim tok killId tc => (confirmDeath db tok killId tc).1
  | .approve tok killId tc => (adminApprove db tok killId tc).1
  | .reject tok killId => (adminReject db tok killId).1

/-! ### Concrete scenario states

Small databases built exclusively through the public operations, used
as counterexample inputs and theorem witnesses. -/

/-- A waiting game (id 1, admin token 100) with two players
(ids 1, 2; tokens 11, 12) — built via `createGame`/`addPlayer`. -/
def db2waiting : DB :=
  (addPlayer (addPlayer (createGame DB.empty 1 100) 1 11).1 1 12).1

/-- The two-player game after the start route (shuffle oracle `[0]`
produces the ring 1→2→1). -/
def db2started : DB :=
  (adminStart db2waiting 100 [0] []).1

/-- Player 1 files a kill claim on their target, player 2 (request 1). -/
def db2claimed : DB :=
  (playKill db2started 11).1

/-- A waiting game (id 1, admin token 100) with three players
(ids 1, 2, 3; tokens 11, 12, 13). -/
def db3waiting : DB :=
  (addPlayer (addPlayer (addPlayer (createGame DB.empty 1 100) 1 11).1 1 12).1 1 13).1

/-- The three-player game after the start route (shuffle oracle `[0, 0]`
produces the ring 1→2→3→1). -/
def db3started : DB :=
  (adminStart db3waiting 100 [0, 0] []).1

/-- Every player files a claim on their own target: requests
1 = (killer 1, victim 2), 2 = (killer 2, victim 3), 3 = (killer 3, victim 1). -/
def db3claims : DB :=
  (playKill (playKill (playKill db3started 11).1 12).1 13).1

/-- Admin approves request 2, then request 1, then the stale request 3
(whose killer 3 is dead by then, and whose victim 1 is the sole survivor). -/
def db3end : DB :=
  (adminApprove (adminApprove (adminApprove db3claims 100 2 0).1 100 1 0).1 100 3 0).1

/-- A waiting game with five players (ids 1–5; tokens 11–15). -/
def db5waiting : DB :=
  (addPlayer (addPlayer (addPlayer (addPlayer (addPlayer
    (createGame DB.empty 1 100) 1 11).1 1 12).1 1 13).1 1 14).1 1 15).1

/-- The five-player game after the start route (shuffle oracle
`[4, 3, 2, 1]` is the identity permutation: ring 1→2→3→4→5→1). -/
def db5started : DB :=
  (adminStart db5waiting 100 [4, 3, 2, 1] []).1

/-- Player 2 files a claim on their target, player 3 (request 1). -/
def db5claimed : DB :=
  (playKill db5started 12).1

/-- A waiting game with four players (ids 1–4; tokens 11–14). -/
def db4waiting : DB :=
  (addPlayer (addPlayer (addPlayer (addPlayer
    (createGame DB.empty 1 100) 1 11).1 1 12).1 1 13).1 1 14).1

/-- The four-player game after the start route (shuffle oracle
`[3, 2, 1]` is the identity permutation: ring 1→2→3→4→1). -/
def db4started : DB :=
  (adminStart db4waiting 100 [3, 2, 1] []).1

/-- Player 2 claims player 3 (request 1); player 1 claims player 2
(request 2); admin approves request 2 (killing 2, rewiring 1→3);
player 1 then claims player 3 (request 3); admin approves request 3
(killing 3).  Request 1 is left pending with both its killer (2) and
its victim (3) dead. -/
def db4stale : DB :=
  (adminApprove (playKill
    (adminApprove (playKill (playKill db4started 12).1 11).1 100 2 0).1
    11).1 100 3 0).1

/-- The target relation: the `target_id` of the player row with id `pid`. -/
def targetOf (db : DB) (pid : Nat) : Option Nat :=
  (getPlayerById db pid).bind (fun p => p.target_id)

/-- Following the target relation `k` steps from `pid`. -/
def followTargets (db : DB) (pid : Nat) : Nat → Option Nat
  | 0 => some pid
  | k+1 => (followTargets db pid k).bind (targetOf db)

end Assassin

namespace Assassin

/-- **C1** (code evidence at the failing input): in the 2-player ring
1→2→1 (active game, pending request 1 = player 1 claims player 2),
confirming via `processKill` does set the game `finished` and mark
player 2 dead, but it sets player 1's target to player 1's own id
(a self-loop) — not to `null` as the spec requires — and hands the
route a non-null `newTarget`, so the winner branch is skipped. -/
theorem c1_two_player_kill_self_loop :
    ((getKillRequestById db2claimed 1).map
        (fun r => (r.killer_id, r.victim_id, r.status)) = some (1, 2, KRStatus.pending)) ∧
    (targetOf db2claimed 1 = some 2 ∧ targetOf db2claimed 2 = some 1) ∧
    ((getGameById (processKill db2claimed 0 1).1 1).map Game.status = some GameStatus.finished) ∧
    ((getPlayerById (processKill db2claimed 0 1).1 2).map Player.is_alive = some false) ∧
    ((getPlayerById (processKill db2claimed 0 1).1 1).map Player.target_id = some (some 1)) ∧
    ((getPlayerById (processKill db2claimed 0 1).1 1).map Player.target_id ≠ some none) ∧
    ((processKill db2claimed 0 1).2.map (fun r => (r.newTarget.map Player.id)) = some (some 1)) := by
  decide

/-- **C2**: in the 5-player ring 1→2→3→4→5→1 (active game), confirming
player 2's pending claim on player 3 yields the 4-cycle 2→4→5→1→2 over
the living players, player 3 dead with `target_id = null`, and player
2's kill counter equal to 1. -/
theorem c2_five_player_rewire :
    ((getGameById db5claimed 1).map Game.status = some GameStatus.active) ∧
    ((getKillRequestById db5claimed 1).map
        (fun r => (r.killer_id, r.victim_id, r.status)) = some (2, 3, KRStatus.pending)) ∧
    (targetOf (processKill db5claimed 0 1).1 2 = some 4) ∧
    (targetOf (processKill db5claimed 0 1).1 4 = some 5) ∧
    (targetOf (processKill db5claimed 0 1).1 5 = some 1) ∧
    (targetOf (processKill db5claimed 0 1).1 1 = some 2) ∧
    ((getPlayerById (processKill db5claimed 0 1).1 3).map
        (fun p => (p.is_alive, p.target_id)) = some (false, none)) ∧
    ((getPlayerById (processKill db5claimed 0 1).1 2).map Player.kills = some 1) ∧
    (followTargets (processKill db5claimed 0 1).1 2 4 = some 2) ∧
    (followTargets (processKill db5claimed 0 1).1 2 1 = some 4) ∧
    (followTargets (processKill db5claimed 0 1).1 2 2 = some 5) ∧
    (followTargets (processKill db5claimed 0 1).1 2 3 = some 1) := by
  decide

/-- **C5** (counterexample): in the reachable state `db3end`, request 2
is `confirmed`, yet the admin reject route flips it to `rejected` — a
request's status does change after leaving `pending`. -/
theorem c5_confirmed_then_rejected :
    ((getKillRequestById db3end 2).map KillRequest.status = some KRStatus.confirmed) ∧
    ((getKillRequestById (adminReject db3end 100 2).1 2).map KillRequest.status
      = some KRStatus.rejected) := by
  decide

/-- **C6** (counterexample): approving the stale request 3 of `db3claims`
(after requests 2 and 1) is a successful confirmed elimination
(`processKill` returns a result), yet afterwards the game is `finished`
with zero living players — refuting both "finished iff exactly one
alive" and "a 0-alive state is never reached from a correctly built
ring" (the ring 1→2→3→1 was built by the start route). -/
theorem c6_zero_alive_reachable :
    ((adminApprove (adminApprove (adminApprove db3claims 100 2 0).1 100 1 0).1
        100 3 0).2.isSome = true) ∧
    ((getGameById db3end 1).map Game.status = some GameStatus.finished) ∧
    ((getAlivePlayers db3end 1).length = 0) := by
  decide

/-- **C8** (counterexample): in the reachable state `db3end`, player 3 is
dead with the non-null target `some 1`; and in the reachable state
`db4stale`, the dead player 3's confirm-death command on stale request 1
changes game state (player 2's kill counter rises from 0 to 1 and the
request becomes confirmed). -/
theorem c8_dead_player_violations :
    ((getPlayerById db3end 3).map (fun p => (p.is_alive, p.target_id))
      = some (false, some 1)) ∧
    ((getPlayerByToken db4stale 13).map Player.is_alive = some false) ∧
    ((getPlayerById db4stale 2).map Player.kills = some 0) ∧
    ((getPlayerById (confirmDeath db4stale 13 1 0).1 2).map Player.kills = some 1) ∧
    ((getKillRequestById (confirmDeath db4stale 13 1 0).1 1).map KillRequest.status
      = some KRStatus.confirmed) := by
  decide

end Assassin

namespace Assassin

/-! ### Infrastructure: how lookups move through row updates -/

/-- `find?` commutes with mapping a function that does not change the
predicate's verdict (for us: row updates that keep the key column). -/
theorem find?_map_of_pred (l : List α) (f : α → α) (p : α → Bool)
    (hf : ∀ x, p (f x) = p x) : (l.map f).find? p = (l.find? p).map f := by
  rw [List.find?_map]
  have hpf : (p ∘ f) = p := funext hf
  rw [hpf]

/-- A row found by `getPlayerById` carries the requested id. -/
theorem getPlayerById_id {db : DB} {pid : Nat} {r : Player}
    (h : getPlayerById db pid = some r) : r.id = pid := by
  have := List.find?_some h
  simpa using this

/-- A row found by `getKillRequestById` carries the requested id. -/
theorem getKillRequestById_id {db : DB} {rid : Nat} {r : KillRequest}
    (h : getKillRequestById db rid = some r) : r.id = rid := by
  have := List.find?_some h
  simpa using this

/-- A row found by `getGameById` carries the requested id. -/
theorem getGameById_id {db : DB} {gid : Nat} {g : Game}
    (h : getGameById db gid = some g) : g.id = gid := by
  have := List.find?_some h
  simpa using this

theorem getPlayerById_setPlayerTarget (db : DB) (pid : Nat) (tid : Option Nat) (qid : Nat) :
    getPlayerById (setPlayerTarget db pid tid) qid =
      (getPlayerById db qid).map
        (fun p => if p.id == pid then { p with target_id := tid } else p) := by
  unfold getPlayerById setPlayerTarget
  exact find?_map_of_pred _ _ _ (fun x => by cases h : (x.id == pid) <;> simp [h])

theorem getPlayerById_setPlayerTask (db : DB) (pid taskId : Nat) (qid : Nat) :
    getPlayerById (setPlayerTask db pid taskId) qid =
      (getPlayerById db qid).map
        (fun p => if p.id == pid then { p with current_task_id := some taskId } else p) := by
  unfold getPlayerById setPlayerTask
  exact find?_map_of_pred _ _ _ (fun x => by cases h : (x.id == pid) <;> simp [h])

theorem getPlayerById_killPlayer (db : DB) (pid : Nat) (qid : Nat) :
    getPlayerById (killPlayer db pid) qid =
      (getPlayerById db qid).map
        (fun p => if p.id == pid then { p with is_alive := false, target_id := none } else p) := by
  unfold getPlayerById killPlayer
  exact find?_map_of_pred _ _ _ (fun x => by cases h : (x.id == pid) <;> simp [h])

theorem getPlayerById_incrementKills (db : DB) (pid : Nat) (qid : Nat) :
    getPlayerById (incrementKills db pid) qid =
      (getPlayerById db qid).map
        (fun p => if p.id == pid then { p with kills := p.kills + 1 } else p) := by
  unfold getPlayerById incrementKills
  exact find?_map_of_pred _ _ _ (fun x => by cases h : (x.id == pid) <;> simp [h])

theorem getKillRequestById_update (db : DB) (rid : Nat) (st : KRStatus) (qid : Nat) :
    getKillRequestById (updateKillRequestStatus db rid st) qid =
      (getKillRequestById db qid).map
        (fun r => if r.id == rid then { r with status := st } else r) := by
  unfold getKillRequestById updateKillRequestStatus
  exact find?_map_of_pred _ _ _ (fun x => by cases h : (x.id == rid) <;> simp [h])

theorem getGameById_updateGameStatus (db : DB) (gid : Nat) (st : GameStatus) (qid : Nat) :
    getGameById (updateGameStatus db gid st) qid =
      (getGameById db qid).map
        (fun g => if g.id == gid then { g with status := st } else g) := by
  unfold getGameById updateGameStatus
  exact find?_map_of_pred _ _ _ (fun x => by cases h : (x.id == gid) <;> simp [h])

end Assassin

namespace Assassin

/-- **C7**: `submit` (`createKillRequest`) is idempotent while pending —
calling it a second time with the same (killer, victim) pair returns
the very same request record and leaves the store unchanged (no new
kill-request row). -/
theorem c7_createKillRequest_idempotent (db : DB) (k v : Nat) :
    createKillRequest (createKillRequest db k v).1 k v = createKillRequest db k v := by
  unfold createKillRequest
  cases h : db.killRequests.find?
      (fun r => r.killer_id == k && r.victim_id == v && r.status == KRStatus.pending) with
  | some ex => simp [h]
  | none =>
    simp only [h]
    simp [List.find?_append, h]

end Assassin

namespace Assassin

/-- The database mutations of `processKill`'s success branch (db.js
lines 230–252), named so the case equations below stay readable:
confirm the request, rewire the killer, maybe assign a task, bump the
kill counter, kill the victim, and set `finished` on single survivor. -/
def pkAfter (db : DB) (tc rid : Nat) (killer victim : Player) : DB :=
  let db1 := updateKillRequestStatus db rid .confirmed
  let db2 := setPlayerTarget db1 killer.id victim.target_id
  let db3 := match getRandomTask db2 killer.game_id tc with
    | some t => setPlayerTask db2 killer.id t.id
    | none => db2
  let db4 := incrementKills db3 killer.id
  let db5 := killPlayer db4 victim.id
  if (getAlivePlayers db5 killer.game_id).length = 1
  then updateGameStatus db5 killer.game_id .finished else db5

theorem processKill_none_of_missing {db : DB} {tc rid : Nat}
    (h : getKillRequestById db rid = none) : processKill db tc rid = (db, none) := by
  unfold processKill
  rw [h]

theorem processKill_none_of_not_pending {db : DB} {tc rid : Nat} {req : KillRequest}
    (h : getKillRequestById db rid = some req) (hs : req.status ≠ KRStatus.pending) :
    processKill db tc rid = (db, none) := by
  unfold processKill
  rw [h]
  simp [hs]

theorem processKill_none_of_no_killer {db : DB} {tc rid : Nat} {req : KillRequest}
    (h : getKillRequestById db rid = some req) (hp : req.status = KRStatus.pending)
    (hk : getPlayerById db req.killer_id = none) :
    processKill db tc rid = (db, none) := by
  unfold processKill
  rw [h]
  simp [hp, hk]

theorem processKill_none_of_no_victim {db : DB} {tc rid : Nat} {req : KillRequest} {killer : Player}
    (h : getKillRequestById db rid = some req) (hp : req.status = KRStatus.pending)
    (hk : getPlayerById db req.killer_id = some killer)
    (hv : getPlayerById db req.victim_id = none) :
    processKill db tc rid = (db, none) := by
  unfold processKill
  rw [h]
  simp [hp, hk, hv]

theorem processKill_success_eq {db : DB} {tc rid : Nat} {req : KillRequest}
    {killer victim : Player}
    (h : getKillRequestById db rid = some req) (hp : req.status = KRStatus.pending)
    (hk : getPlayerById db req.killer_id = some killer)
    (hv : getPlayerById db req.victim_id = some victim) :
    processKill db tc rid =
      (pkAfter db tc rid killer victim,
       some { killer := killer, victim := victim,
              newTarget := victim.target_id.bind (getPlayerById (pkAfter db tc rid killer victim)),
              newTask := getRandomTask
                (setPlayerTarget (updateKillRequestStatus db rid .confirmed)
                  killer.id victim.target_id) killer.game_id tc }) := by
  unfold processKill pkAfter
  rw [h]
  simp only [hp, ne_eq, not_true_eq_false, if_false, hk, hv]

/-! Cross-table no-ops: player and game updates never touch the
`kill_requests` rows, and so on.  All hold by definitional unfolding. -/

theorem getPlayerById_updateKillRequestStatus (db : DB) (rid : Nat) (st : KRStatus) (q : Nat) :
    getPlayerById (updateKillRequestStatus db rid st) q = getPlayerById db q := rfl

theorem getPlayerById_updateGameStatus (db : DB) (gid : Nat) (st : GameStatus) (q : Nat) :
    getPlayerById (updateGameStatus db gid st) q = getPlayerById db q := rfl

theorem getKillRequestById_setPlayerTarget (db : DB) (pid : Nat) (t : Option Nat) (q : Nat) :
    getKillRequestById (setPlayerTarget db pid t) q = getKillRequestById db q := rfl

theorem getKillRequestById_setPlayerTask (db : DB) (pid tid : Nat) (q : Nat) :
    getKillRequestById (setPlayerTask db pid tid) q = getKillRequestById db q := rfl

theorem getKillRequestById_incrementKills (db : DB) (pid : Nat) (q : Nat) :
    getKillRequestById (incrementKills db pid) q = getKillRequestById db q := rfl

theorem getKillRequestById_killPlayer (db : DB) (pid : Nat) (q : Nat) :
    getKillRequestById (killPlayer db pid) q = getKillRequestById db q := rfl

theorem getKillRequestById_updateGameStatus (db : DB) (gid : Nat) (st : GameStatus) (q : Nat) :
    getKillRequestById (updateGameStatus db gid st) q = getKillRequestById db q := rfl

theorem getGameById_setPlayerTarget (db : DB) (pid : Nat) (t : Option Nat) (q : Nat) :
    getGameById (setPlayerTarget db pid t) q = getGameById db q := rfl

theorem getGameById_setPlayerTask (db : DB) (pid tid : Nat) (q : Nat) :
    getGameById (setPlayerTask db pid tid) q = getGameById db q := rfl

theorem getGameById_incrementKills (db : DB) (pid : Nat) (q : Nat) :
    getGameById (incrementKills db pid) q = getGameById db q := rfl

theorem getGameById_killPlayer (db : DB) (pid : Nat) (q : Nat) :
    getGameById (killPlayer db pid) q = getGameById db q := rfl

theorem getGameById_updateKillRequestStatus (db : DB) (rid : Nat) (st : KRStatus) (q : Nat) :
    getGameById (updateKillRequestStatus db rid st) q = getGameById db q := rfl

theorem getAlivePlayers_updateGameStatus (db : DB) (gid : Nat) (st : GameStatus) (g : Nat) :
    getAlivePlayers (updateGameStatus db gid st) g = getAlivePlayers db g := rfl

/-- The kill-request rows after a successful `processKill` body are
exactly those after confirming the request. -/
theorem getKillRequestById_pkAfter (db : DB) (tc rid : Nat) (killer victim : Player) (q : Nat) :
    getKillRequestById (pkAfter db tc rid killer victim) q =
      getKillRequestById (updateKillRequestStatus db rid .confirmed) q := by
  unfold pkAfter
  dsimp only
  split <;> split <;> rfl

end Assassin

namespace Assassin

/-- **C4**: `resolve` (`processKill`) on a non-pending request is a
no-op returning `none` with the whole state unchanged; consequently a
request leaves `pending` through `processKill` at most once, and of two
sequential resolution attempts on a pending request (with existing
killer and victim rows) the first performs the confirmation and the
second is a no-op. -/
theorem c4_resolve_at_most_once :
    (∀ db tc rid req, getKillRequestById db rid = some req →
        req.status ≠ KRStatus.pending → processKill db tc rid = (db, none)) ∧
    (∀ db tc tcb rid req killer victim,
        getKillRequestById db rid = some req → req.status = KRStatus.pending →
        getPlayerById db req.killer_id = some killer →
        getPlayerById db req.victim_id = some victim →
        (processKill db tc rid).2.isSome = true ∧
        processKill (processKill db tc rid).1 tcb rid = ((processKill db tc rid).1, none)) := by
  constructor
  · exact fun db tc rid req h hs => processKill_none_of_not_pending h hs
  · intro db tc tcb rid req killer victim h hp hk hv
    have he := @processKill_success_eq db tc rid req killer victim h hp hk hv
    have hfound : getKillRequestById (processKill db tc rid).1 rid =
        some { req with status := KRStatus.confirmed } := by
      rw [he]
      dsimp only
      rw [getKillRequestById_pkAfter, getKillRequestById_update, h]
      simp [getKillRequestById_id h]
    refine ⟨?_, ?_⟩
    · rw [he]
      rfl
    · exact processKill_none_of_not_pending hfound (by simp)

/-- Witness for C4 at concrete inputs: request 1 of `db3end` is already
confirmed, so resolving it again is a no-op; request 1 of `db2claimed`
is pending with both players present, so the first resolution succeeds
and the immediate second attempt is a no-op. -/
theorem c4_witness :
    processKill db3end 0 1 = (db3end, none) ∧
    ((processKill db2claimed 0 1).2.isSome = true ∧
      processKill (processKill db2claimed 0 1).1 0 1 = ((processKill db2claimed 0 1).1, none)) := by
  refine ⟨?_, ?_⟩
  · exact c4_resolve_at_most_once.1 db3end 0 1 ⟨1, 1, 2, KRStatus.confirmed⟩
      (by decide) (by decide)
  · exact c4_resolve_at_most_once.2 db2claimed 0 0 1 ⟨1, 1, 2, KRStatus.pending⟩
      ⟨1, 1, 11, some 2, true, 0, none⟩ ⟨2, 1, 12, some 1, true, 0, none⟩
      (by decide) (by decide) (by decide) (by decide)

end Assassin

namespace Assassin

/-- The row transformation a successful `processKill` applies to every
player row (named for the lookup characterization below): the killer is
rewired to the victim's former target (and possibly re-tasked, and his
kill counter bumped), the victim is marked dead with a null target. -/
def pkRow (tc rid : Nat) (db : DB) (killer victim : Player) (p : Player) : Player :=
  let p2 := if p.id == killer.id then { p with target_id := victim.target_id } else p
  let p3 := match getRandomTask (setPlayerTarget (updateKillRequestStatus db rid .confirmed)
      killer.id victim.target_id) killer.game_id tc with
    | some t => if p2.id == killer.id then { p2 with current_task_id := some t.id } else p2
    | none => p2
  let p4 := if p3.id == killer.id then { p3 with kills := p3.kills + 1 } else p3
  if p4.id == victim.id then { p4 with is_alive := false, target_id := none } else p4

theorem getPlayerById_pkAfter (db : DB) (tc rid : Nat) (killer victim : Player) (q : Nat) :
    getPlayerById (pkAfter db tc rid killer victim) q =
      (getPlayerById db q).map (pkRow tc rid db killer victim) := by
  unfold pkAfter
  dsimp only
  cases hR : getRandomTask (setPlayerTarget (updateKillRequestStatus db rid KRStatus.confirmed)
      killer.id victim.target_id) killer.game_id tc <;>
    split <;>
      (simp only [getPlayerById_updateGameStatus, getPlayerById_killPlayer,
        getPlayerById_incrementKills, getPlayerById_setPlayerTask, getPlayerById_setPlayerTarget,
        getPlayerById_updateKillRequestStatus, Option.map_map]
       cases h : getPlayerById db q
       · rfl
       · simp [pkRow, hR, Function.comp])

/-- Field-level description of `pkRow`. -/
theorem pkRow_spec (tc rid : Nat) (db : DB) (killer victim : Player) (p : Player) :
    (pkRow tc rid db killer victim p).id = p.id ∧
    (pkRow tc rid db killer victim p).is_alive
      = (if p.id == victim.id then false else p.is_alive) ∧
    (pkRow tc rid db killer victim p).kills
      = (if p.id == killer.id then p.kills + 1 else p.kills) ∧
    (pkRow tc rid db killer victim p).target_id
      = (if p.id == victim.id then none
         else if p.id == killer.id then victim.target_id else p.target_id) := by
  unfold pkRow
  dsimp only
  cases hR : getRandomTask (setPlayerTarget (updateKillRequestStatus db rid KRStatus.confirmed)
      killer.id victim.target_id) killer.game_id tc <;>
    cases hk : (p.id == killer.id) <;> cases hw : (p.id == victim.id) <;> simp [hk, hw]

end Assassin

namespace Assassin

/-- **C10**: `processKill` succeeds exactly when the request exists, is
pending, and both killer and victim rows exist — it imposes no
precondition on the game status or on either player being alive (so a
stale pending request still mutates state after the game finished).  On
failure it returns `none` and leaves the state unchanged; on success it
marks the request confirmed, kills the victim, increments the killer's
kill counter, and (when killer ≠ victim) rewires the killer to the
victim's former target. -/
theorem c10_processKill_exact_preconditions (db : DB) (tc rid : Nat) :
    ((processKill db tc rid).2.isSome = true ↔
      ∃ req, getKillRequestById db rid = some req ∧ req.status = KRStatus.pending ∧
        (getPlayerById db req.killer_id).isSome = true ∧
        (getPlayerById db req.victim_id).isSome = true) ∧
    ((processKill db tc rid).2 = none → (processKill db tc rid).1 = db) ∧
    (∀ req killer victim,
      getKillRequestById db rid = some req → req.status = KRStatus.pending →
      getPlayerById db req.killer_id = some killer →
      getPlayerById db req.victim_id = some victim →
      ((getKillRequestById (processKill db tc rid).1 rid).map KillRequest.status
        = some KRStatus.confirmed) ∧
      ((getPlayerById (processKill db tc rid).1 req.victim_id).map Player.is_alive
        = some false) ∧
      ((getPlayerById (processKill db tc rid).1 req.killer_id).map Player.kills
        = some (killer.kills + 1)) ∧
      (req.killer_id ≠ req.victim_id →
        (getPlayerById (processKill db tc rid).1 req.killer_id).map Player.target_id
          = some victim.target_id)) := by
  refine ⟨⟨?_, ?_⟩, ?_, ?_⟩
  · intro hs
    cases hreq : getKillRequestById db rid with
    | none => rw [processKill_none_of_missing hreq] at hs; simp at hs
    | some req =>
      by_cases hp : req.status = KRStatus.pending
      · cases hk : getPlayerById db req.killer_id with
        | none => rw [processKill_none_of_no_killer hreq hp hk] at hs; simp at hs
        | some killer =>
          cases hv : getPlayerById db req.victim_id with
          | none => rw [processKill_none_of_no_victim hreq hp hk hv] at hs; simp at hs
          | some victim => exact ⟨req, rfl, hp, by simp [hk], by simp [hv]⟩
      · rw [processKill_none_of_not_pending hreq hp] at hs; simp at hs
  · rintro ⟨req, hreq, hp, hk, hv⟩
    rcases Option.isSome_iff_exists.mp hk with ⟨killer, hk⟩
    rcases Option.isSome_iff_exists.mp hv with ⟨victim, hv⟩
    rw [processKill_success_eq hreq hp hk hv]
    rfl
  · intro hnone
    cases hreq : getKillRequestById db rid with
    | none => rw [processKill_none_of_missing hreq]
    | some req =>
      by_cases hp : req.status = KRStatus.pending
      · cases hk : getPlayerById db req.killer_id with
        | none => rw [processKill_none_of_no_killer hreq hp hk]
        | some killer =>
          cases hv : getPlayerById db req.victim_id with
          | none => rw [processKill_none_of_no_victim hreq hp hk hv]
          | some victim =>
            rw [processKill_success_eq hreq hp hk hv] at hnone
            simp at hnone
      · rw [processKill_none_of_not_pending hreq hp]
  · intro req killer victim hreq hp hk hv
    have hkid : killer.id = req.killer_id := getPlayerById_id hk
    have hvid : victim.id = req.victim_id := getPlayerById_id hv
    have he := @processKill_success_eq db tc rid req killer victim hreq hp hk hv
    rw [he]
    dsimp only
    rw [getKillRequestById_pkAfter, getKillRequestById_update, hreq]
    rw [getPlayerById_pkAfter, getPlayerById_pkAfter, hk, hv]
    have hvspec := pkRow_spec tc rid db killer victim victim
    have hkspec := pkRow_spec tc rid db killer victim killer
    refine ⟨?_, ?_, ?_, ?_⟩
    · simp [getKillRequestById_id hreq]
    · simp only [Option.map_some']
      rw [hvspec.2.1]
      simp
    · simp only [Option.map_some']
      rw [hkspec.2.2.1]
      simp
    · intro hne
      simp only [Option.map_some']
      rw [hkspec.2.2.2]
      have h1 : (killer.id == victim.id) = false := by
        simp [hkid, hvid, hne]
      simp [h1]

/-- Witness for C10 at a concrete input: request 1 of `db2claimed` is
pending with both rows present, so resolution succeeds and the request
ends up confirmed with the victim dead. -/
theorem c10_witness :
    (processKill db2claimed 0 1).2.isSome = true ∧
    ((getKillRequestById (processKill db2claimed 0 1).1 1).map KillRequest.status
      = some KRStatus.confirmed) ∧
    ((getPlayerById (processKill db2claimed 0 1).1 2).map Player.is_alive = some false) := by
  refine ⟨?_, ?_, ?_⟩
  · exact ((c10_processKill_exact_preconditions db2claimed 0 1).1).2
      ⟨⟨1, 1, 2, KRStatus.pending⟩, by decide, by decide, by decide, by decide⟩
  · exact (((c10_processKill_exact_preconditions db2claimed 0 1).2.2) ⟨1, 1, 2, KRStatus.pending⟩
      ⟨1, 1, 11, some 2, true, 0, none⟩ ⟨2, 1, 12, some 1, true, 0, none⟩
      (by decide) (by decide) (by decide) (by decide)).1
  · exact (((c10_processKill_exact_preconditions db2claimed 0 1).2.2) ⟨1, 1, 2, KRStatus.pending⟩
      ⟨1, 1, 11, some 2, true, 0, none⟩ ⟨2, 1, 12, some 1, true, 0, none⟩
      (by decide) (by decide) (by decide) (by decide)).2.1

end Assassin

namespace Assassin

/-- A waiting game (id 1, admin token 100) with a single player. -/
def db1waiting : DB :=
  (addPlayer (createGame DB.empty 1 100) 1 11).1

/-- **C9**: the start route fails with `invalidState` when the game is
not `waiting`, and with `insufficientPlayers` when it is `waiting` with
fewer than two players (the status check runs first); in both cases the
returned state is the input state, untouched.  The inner
`assignTargets` also refuses, mutation-free, with fewer than two
players. -/
theorem c9_start_preconditions (db : DB) (tok : Nat) (js tcs : List Nat) (game : Game)
    (hg : getGameByAdminToken db tok = some game) :
    (game.status ≠ GameStatus.waiting →
      adminStart db tok js tcs = (db, .error .invalidState)) ∧
    (game.status = GameStatus.waiting → (getPlayersByGame db game.id).length < 2 →
      adminStart db tok js tcs = (db, .error .insufficientPlayers)) ∧
    (∀ gid, (getPlayersByGame db gid).length < 2 → assignTargets db gid js tcs = (db, false)) := by
  refine ⟨?_, ?_, ?_⟩
  · intro hs
    unfold adminStart
    rw [hg]
    simp [hs]
  · intro hs hlen
    unfold adminStart
    rw [hg]
    simp [hs, hlen]
  · intro gid hlen
    unfold assignTargets
    simp [hlen]

/-- Witness for C9 at concrete inputs: the already-active two-player
game rejects a second start with `invalidState`; the waiting one-player
game rejects with `insufficientPlayers`; `assignTargets` refuses on the
one-player game. -/
theorem c9_witness :
    adminStart db2started 100 [] [] = (db2started, .error .invalidState) ∧
    adminStart db1waiting 100 [] [] = (db1waiting, .error .insufficientPlayers) ∧
    assignTargets db1waiting 1 [] [] = (db1waiting, false) := by
  refine ⟨?_, ?_, ?_⟩
  · exact (c9_start_preconditions db2started 100 [] [] ⟨1, .active, 100⟩ (by decide)).1
      (by decide)
  · exact (c9_start_preconditions db1waiting 100 [] [] ⟨1, .waiting, 100⟩ (by decide)).2.1
      (by decide) (by decide)
  · exact (c9_start_preconditions db1waiting 100 [] [] ⟨1, .waiting, 100⟩ (by decide)).2.2
      1 (by decide)

/-- **C8** (amended part): the elimination step `killPlayer` always
leaves the killed row dead with a null target, and the kill-submission
route is a mutation-free no-op for a dead player.  (The full claimed
invariant fails: see the counterexample on stale requests.) -/
theorem c8_dead_target_null_and_no_submit (db : DB) :
    (∀ pid r, getPlayerById (killPlayer db pid) pid = some r →
      r.is_alive = false ∧ r.target_id = none) ∧
    (∀ tok player, getPlayerByToken db tok = some player → player.is_alive = false →
      playKill db tok = (db, none)) := by
  constructor
  · intro pid r h
    rw [getPlayerById_killPlayer] at h
    cases ho : getPlayerById db pid with
    | none => rw [ho] at h; simp at h
    | some p =>
      rw [ho] at h
      have hid : p.id = pid := getPlayerById_id ho
      simp only [Option.map_some', hid, beq_self_eq_true, if_true] at h
      cases h
      simp
  · intro tok player h hdead
    unfold playKill
    rw [h]
    simp [hdead]

/-- Witness for C8's amended part at concrete inputs: killing player 1
of `db2started` nulls their target, and the dead player 3 of `db3end`
cannot submit a kill. -/
theorem c8_amended_witness :
    ((⟨1, 1, 11, none, false, 0, none⟩ : Player).is_alive = false ∧
      (⟨1, 1, 11, none, false, 0, none⟩ : Player).target_id = none) ∧
    playKill db3end 13 = (db3end, none) := by
  constructor
  · exact (c8_dead_target_null_and_no_submit db2started).1 1
      ⟨1, 1, 11, none, false, 0, none⟩ (by decide)
  · exact (c8_dead_target_null_and_no_submit db3end).2 13
      ⟨3, 1, 13, some 1, false, 1, none⟩ (by decide) (by decide)

end Assassin

namespace Assassin

/-! ### Shapes of the public operations -/

theorem getKillRequestById_congr {db db' : DB} (h : db.killRequests = db'.killRequests)
    (q : Nat) : getKillRequestById db q = getKillRequestById db' q := by
  unfold getKillRequestById
  rw [h]

theorem assignStep_killRequests (gid : Nat) (shuffled : List Player) (tcs : List Nat)
    (db : DB) (i : Nat) : (assignStep gid shuffled tcs db i).killRequests = db.killRequests := by
  unfold assignStep
  dsimp only
  repeat' split
  all_goals rfl

theorem foldl_assignStep_killRequests (gid : Nat) (shuffled : List Player) (tcs : List Nat)
    (is : List Nat) (db : DB) :
    (is.foldl (assignStep gid shuffled tcs) db).killRequests = db.killRequests := by
  induction is generalizing db with
  | nil => rfl
  | cons i is ih => rw [List.foldl_cons, ih, assignStep_killRequests]

theorem assignTargets_killRequests (db : DB) (gid : Nat) (js tcs : List Nat) :
    (assignTargets db gid js tcs).1.killRequests = db.killRequests := by
  unfold assignTargets
  dsimp only
  split
  · rfl
  · exact foldl_assignStep_killRequests ..

theorem adminStart_killRequests (db : DB) (tok : Nat) (js tcs : List Nat) :
    (adminStart db tok js tcs).1.killRequests = db.killRequests := by
  unfold adminStart
  cases getGameByAdminToken db tok with
  | none => rfl
  | some game =>
    dsimp only
    split
    · rfl
    · split
      · rfl
      · show (updateGameStatus (assignTargets db game.id js tcs).1 game.id .active).killRequests
            = db.killRequests
        rw [show ∀ d : DB, (updateGameStatus d game.id .active).killRequests = d.killRequests
              from fun d => rfl]
        exact assignTargets_killRequests ..

/-- Rows already present keep their lookup result through `createKillRequest`. -/
theorem getKillRequestById_createKillRequest {db : DB} {k v q : Nat} {r : KillRequest}
    (h : getKillRequestById db q = some r) :
    getKillRequestById (createKillRequest db k v).1 q = some r := by
  unfold createKillRequest
  cases hf : db.killRequests.find?
      (fun x => x.killer_id == k && x.victim_id == v && x.status == KRStatus.pending) with
  | some ex => exact h
  | none =>
    unfold getKillRequestById at h ⊢
    simp [List.find?_append, h]

theorem playKill_shape (db : DB) (tok : Nat) :
    (playKill db tok).1 = db ∨ ∃ k v, (playKill db tok).1 = (createKillRequest db k v).1 := by
  unfold playKill
  cases getPlayerByToken db tok with
  | none => exact Or.inl rfl
  | some player =>
    dsimp only
    split
    · exact Or.inl rfl
    · cases player.target_id with
      | none => exact Or.inl rfl
      | some tid =>
        dsimp only
        cases getPlayerById db tid with
        | none => exact Or.inl rfl
        | some victim =>
          cases getGameById db player.game_id with
          | none => exact Or.inl rfl
          | some game =>
            dsimp only
            split
            · exact Or.inl rfl
            · exact Or.inr ⟨player.id, victim.id, rfl⟩

theorem processKill_shape (db : DB) (tc rid : Nat) :
    (processKill db tc rid).1 = db ∨
    ∃ req killer victim,
      getKillRequestById db rid = some req ∧ req.status = KRStatus.pending ∧
      getPlayerById db req.killer_id = some killer ∧
      getPlayerById db req.victim_id = some victim ∧
      (processKill db tc rid).1 = pkAfter db tc rid killer victim := by
  cases hreq : getKillRequestById db rid with
  | none => exact Or.inl (by rw [processKill_none_of_missing hreq])
  | some req =>
    by_cases hp : req.status = KRStatus.pending
    · cases hk : getPlayerById db req.killer_id with
      | none => exact Or.inl (by rw [processKill_none_of_no_killer hreq hp hk])
      | some killer =>
        cases hv : getPlayerById db req.victim_id with
        | none => exact Or.inl (by rw [processKill_none_of_no_victim hreq hp hk hv])
        | some victim =>
          refine Or.inr ⟨req, killer, victim, rfl, hp, hk, hv, ?_⟩
          rw [processKill_success_eq hreq hp hk hv]
    · exact Or.inl (by rw [processKill_none_of_not_pending hreq hp])

theorem confirmDeath_shape (db : DB) (tok killId tc : Nat) :
    (confirmDeath db tok killId tc).1 = db ∨
    (confirmDeath db tok killId tc).1 = (processKill db tc killId).1 := by
  unfold confirmDeath
  cases getPlayerByToken db tok with
  | none => exact Or.inl rfl
  | some player =>
    cases getKillRequestById db killId with
    | none => exact Or.inl rfl
    | some kr =>
      dsimp only
      split
      · exact Or.inr rfl
      · exact Or.inl rfl

theorem adminApprove_shape (db : DB) (tok killId tc : Nat) :
    (adminApprove db tok killId tc).1 = db ∨
    (adminApprove db tok killId tc).1 = (processKill db tc killId).1 := by
  unfold adminApprove
  cases getGameByAdminToken db tok with
  | none => exact Or.inl rfl
  | some g => exact Or.inr rfl

theorem adminReject_shape (db : DB) (tok killId : Nat) :
    (adminReject db tok killId).1 = db ∨
    (adminReject db tok killId).1 = updateKillRequestStatus db killId .rejected := by
  unfold adminReject
  cases getGameByAdminToken db tok with
  | none => exact Or.inl rfl
  | some g => exact Or.inr rfl

end Assassin

namespace Assassin

theorem status_unchanged_absurd {db' : DB} {rid : Nat} {r r' : KillRequest}
    (hq : getKillRequestById db' rid = some r)
    (h' : getKillRequestById db' rid = some r')
    (hne : r'.status ≠ r.status) : False := by
  rw [hq] at h'
  have hrr := Option.some_inj.mp h'
  rw [← hrr] at hne
  exact hne rfl

/-- A status change across one `processKill` call can only be
pending → confirmed. -/
theorem resolve_status_change {db : DB} {tc killId rid : Nat} {r r' : KillRequest}
    (h : getKillRequestById db rid = some r)
    (h' : getKillRequestById (processKill db tc killId).1 rid = some r')
    (hne : r'.status ≠ r.status) :
    r.status = KRStatus.pending ∧ r'.status = KRStatus.confirmed := by
  rcases processKill_shape db tc killId with hsh | ⟨req, killer, victim, hreq, hp, hk, hv, hsh⟩
  · rw [hsh] at h'
    exact (status_unchanged_absurd h h' hne).elim
  · rw [hsh, getKillRequestById_pkAfter, getKillRequestById_update, h] at h'
    simp only [Option.map_some'] at h'
    cases hid : (r.id == killId) with
    | false =>
      rw [if_neg (by simp [hid])] at h'
      have hrr := Option.some_inj.mp h'
      rw [← hrr] at hne
      exact (hne rfl).elim
    | true =>
      rw [if_pos hid] at h'
      have hr' : ({ r with status := KRStatus.confirmed } : KillRequest) = r' :=
        Option.some_inj.mp h'
      have hrid : r.id = rid := getKillRequestById_id h
      have hkid : rid = killId := by
        rw [← hrid]
        exact eq_of_beq hid
      have hreqr : req = r := by
        rw [← hkid] at hreq
        rw [h] at hreq
        exact (Option.some_inj.mp hreq).symm
      constructor
      · rw [← hreqr]; exact hp
      · rw [← hr']

/-- **C5** (amended): across every public operation, an existing kill
request's status changes only by pending → confirmed (through
resolution) or by an admin reject — and the reject route writes
`rejected` whatever the current status was, so confirmed → rejected is
also possible, exactly through `Op.reject`. -/
theorem c5_status_transitions (db : DB) (op : Op) (rid : Nat) (r r' : KillRequest)
    (h : getKillRequestById db rid = some r)
    (h' : getKillRequestById (applyOp db op) rid = some r')
    (hne : r'.status ≠ r.status) :
    (r.status = KRStatus.pending ∧ r'.status = KRStatus.confirmed) ∨
    (r'.status = KRStatus.rejected ∧ ∃ tok killId, op = Op.reject tok killId) := by
  cases op with
  | start tok js tcs =>
    exfalso
    refine status_unchanged_absurd ?_ h' hne
    show getKillRequestById (adminStart db tok js tcs).1 rid = some r
    rw [getKillRequestById_congr (adminStart_killRequests db tok js tcs) rid]
    exact h
  | submit tok =>
    exfalso
    rcases playKill_shape db tok with hsh | ⟨k, v, hsh⟩
    · refine status_unchanged_absurd ?_ h' hne
      show getKillRequestById (playKill db tok).1 rid = some r
      rw [hsh]
      exact h
    · refine status_unchanged_absurd ?_ h' hne
      show getKillRequestById (playKill db tok).1 rid = some r
      rw [hsh]
      exact getKillRequestById_createKillRequest h
  | confirmVictim tok killId tc =>
    rcases confirmDeath_shape db tok killId tc with hsh | hsh
    · exfalso
      refine status_unchanged_absurd ?_ h' hne
      show getKillRequestById (confirmDeath db tok killId tc).1 rid = some r
      rw [hsh]
      exact h
    · left
      refine @resolve_status_change db tc killId rid r r' h ?_ hne
      rw [← hsh]
      exact h'
  | approve tok killId tc =>
    rcases adminApprove_shape db tok killId tc with hsh | hsh
    · exfalso
      refine status_unchanged_absurd ?_ h' hne
      show getKillRequestById (adminApprove db tok killId tc).1 rid = some r
      rw [hsh]
      exact h
    · left
      refine @resolve_status_change db tc killId rid r r' h ?_ hne
      rw [← hsh]
      exact h'
  | reject tok killId =>
    rcases adminReject_shape db tok killId with hsh | hsh
    · exfalso
      refine status_unchanged_absurd ?_ h' hne
      show getKillRequestById (adminReject db tok killId).1 rid = some r
      rw [hsh]
      exact h
    · have h'' : getKillRequestById (updateKillRequestStatus db killId .rejected) rid
          = some r' := by
        rw [← hsh]
        exact h'
      rw [getKillRequestById_update, h] at h''
      simp only [Option.map_some'] at h''
      cases hid : (r.id == killId) with
      | false =>
        exfalso
        rw [if_neg (by simp [hid])] at h''
        have hrr := Option.some_inj.mp h''
        rw [← hrr] at hne
        exact hne rfl
      | true =>
        right
        refine ⟨?_, tok, killId, rfl⟩
        rw [if_pos hid] at h''
        have hrr := Option.some_inj.mp h''
        rw [← hrr]

/-- Witness for C5's amended transition theorem at a concrete input:
approving pending request 2 of `db3claims` is a pending → confirmed
transition, so the theorem's left disjunct holds. -/
theorem c5_amended_witness :
    (KRStatus.pending = KRStatus.pending ∧ KRStatus.confirmed = KRStatus.confirmed) ∨
    (KRStatus.confirmed = KRStatus.rejected ∧
      ∃ tok killId, Op.approve 100 2 0 = Op.reject tok killId) := by
  have := c5_status_transitions db3claims (Op.approve 100 2 0) 2
    ⟨2, 2, 3, KRStatus.pending⟩ ⟨2, 2, 3, KRStatus.confirmed⟩
    (by decide) (by decide) (by decide)
  exact this

end Assassin

namespace Assassin

/-- **C6** (amended): a successful `processKill` leaves the killer's
game `finished` exactly when one player of that game is alive
afterwards or the game was `finished` already; it never clears
`finished`.  (The claimed global "finished iff exactly one alive"
invariant fails in reachable states — see the counterexample.) -/
theorem c6_win_check (db : DB) (tc rid : Nat) (res : KillResult) (g : Game)
    (hs : (processKill db tc rid).2 = some res)
    (hg : getGameById db res.killer.game_id = some g) :
    ∃ g', getGameById (processKill db tc rid).1 res.killer.game_id = some g' ∧
      (g'.status = GameStatus.finished ↔
        ((getAlivePlayers (processKill db tc rid).1 res.killer.game_id).length = 1 ∨
          g.status = GameStatus.finished)) := by
  cases hreq : getKillRequestById db rid with
  | none => rw [processKill_none_of_missing hreq] at hs; simp at hs
  | some req =>
    by_cases hp : req.status = KRStatus.pending
    · cases hk : getPlayerById db req.killer_id with
      | none => rw [processKill_none_of_no_killer hreq hp hk] at hs; simp at hs
      | some killer =>
        cases hv : getPlayerById db req.victim_id with
        | none => rw [processKill_none_of_no_victim hreq hp hk hv] at hs; simp at hs
        | some victim =>
          have he := @processKill_success_eq db tc rid req killer victim hreq hp hk hv
          rw [he] at hs
          have hres : res.killer = killer := by
            have h2 := Option.some_inj.mp hs
            rw [← h2]
          rw [he]
          dsimp only
          rw [hres] at hg ⊢
          have hgid : g.id = killer.game_id := getGameById_id hg
          unfold pkAfter
          dsimp only
          cases hR : getRandomTask (setPlayerTarget (updateKillRequestStatus db rid
              KRStatus.confirmed) killer.id victim.target_id) killer.game_id tc with
          | none =>
            dsimp only
            split
            · rename_i hcond
              refine ⟨{ g with status := GameStatus.finished }, ?_, ?_⟩
              · rw [getGameById_updateGameStatus, getGameById_killPlayer,
                  getGameById_incrementKills, getGameById_setPlayerTarget,
                  getGameById_updateKillRequestStatus, hg]
                simp [hgid]
              · rw [getAlivePlayers_updateGameStatus]
                simp [hcond]
            · rename_i hcond
              refine ⟨g, ?_, ?_⟩
              · rw [getGameById_killPlayer, getGameById_incrementKills,
                  getGameById_setPlayerTarget, getGameById_updateKillRequestStatus, hg]
              · simp [hcond]
          | some t =>
            dsimp only
            split
            · rename_i hcond
              refine ⟨{ g with status := GameStatus.finished }, ?_, ?_⟩
              · rw [getGameById_updateGameStatus, getGameById_killPlayer,
                  getGameById_incrementKills, getGameById_setPlayerTask,
                  getGameById_setPlayerTarget, getGameById_updateKillRequestStatus, hg]
                simp [hgid]
              · rw [getAlivePlayers_updateGameStatus]
                simp [hcond]
            · rename_i hcond
              refine ⟨g, ?_, ?_⟩
              · rw [getGameById_killPlayer, getGameById_incrementKills,
                  getGameById_setPlayerTask, getGameById_setPlayerTarget,
                  getGameById_updateKillRequestStatus, hg]
              · simp [hcond]
    · rw [processKill_none_of_not_pending hreq hp] at hs
      simp at hs

/-- Witness for C6's amended theorem at a concrete input: resolving the
pending request of the active two-player game `db2claimed`. -/
theorem c6_amended_witness :
    ∃ g', getGameById (processKill db2claimed 0 1).1 1 = some g' ∧
      (g'.status = GameStatus.finished ↔
        ((getAlivePlayers (processKill db2claimed 0 1).1 1).length = 1 ∨
          GameStatus.active = GameStatus.finished)) := by
  exact c6_win_check db2claimed 0 1
    ⟨⟨1, 1, 11, some 2, true, 0, none⟩, ⟨2, 1, 12, some 1, true, 0, none⟩,
      some ⟨1, 1, 11, some 1, true, 1, none⟩, none⟩
    ⟨1, GameStatus.active, 100⟩ (by decide) (by decide)

end Assassin

namespace Assassin

/-! ### The Fisher-Yates shuffle permutes its input -/

/-- Pulling the `m`-th element to the front while writing `x` into its
slot is a permutation of putting `x` in front. -/
theorem cons_get_set_perm : ∀ (t : List α) (m : Nat) (x : α) (hm : m < t.length),
    List.Perm (t[m] :: t.set m x) (x :: t) := by
  intro t
  induction t with
  | nil => intro m x hm; simp at hm
  | cons y s ih =>
    intro m x hm
    cases m with
    | zero =>
      simp only [List.getElem_cons_zero, List.set_cons_zero]
      exact List.Perm.swap x y s
    | succ k =>
      have hk : k < s.length := by simpa using hm
      simp only [List.getElem_cons_succ, List.set_cons_succ]
      refine List.Perm.trans (List.Perm.swap y (s[k]) (s.set k x)) ?_
      refine List.Perm.trans (List.Perm.cons y (ih k x hk)) ?_
      exact List.Perm.swap x y s

/-- Swapping two valid positions permutes the list. -/
theorem set_set_swap_perm : ∀ (l : List α) (i j : Nat) (hi : i < l.length)
    (hj : j < l.length), List.Perm ((l.set i l[j]).set j l[i]) l := by
  intro l
  induction l with
  | nil => intro i j hi hj; simp at hi
  | cons y s ih =>
    intro i j hi hj
    cases i with
    | zero =>
      cases j with
      | zero =>
        simp only [List.getElem_cons_zero, List.set_cons_zero]
        exact List.Perm.refl _
      | succ k =>
        have hk : k < s.length := by simpa using hj
        simp only [List.getElem_cons_zero, List.getElem_cons_succ, List.set_cons_zero,
          List.set_cons_succ]
        exact cons_get_set_perm s k y hk
    | succ m =>
      cases j with
      | zero =>
        have hm : m < s.length := by simpa using hi
        simp only [List.getElem_cons_zero, List.getElem_cons_succ, List.set_cons_zero,
          List.set_cons_succ]
        exact cons_get_set_perm s m y hm
      | succ k =>
        have hm : m < s.length := by simpa using hi
        have hk : k < s.length := by simpa using hj
        simp only [List.getElem_cons_succ, List.set_cons_succ]
        exact List.Perm.cons y (ih m k hm hk)

theorem swapList_perm (l : List α) (i j : Nat) : List.Perm (swapList l i j) l := by
  unfold swapList
  cases hi : l[i]? with
  | none => exact List.Perm.refl l
  | some a =>
    cases hj : l[j]? with
    | none => exact List.Perm.refl l
    | some b =>
      obtain ⟨hi2, ha⟩ := List.getElem?_eq_some_iff.mp hi
      obtain ⟨hj2, hb⟩ := List.getElem?_eq_some_iff.mp hj
      rw [← ha, ← hb]
      exact set_set_swap_perm l i j hi2 hj2

theorem fisherYatesAux_perm : ∀ (i : Nat) (js : List Nat) (l : List α),
    List.Perm (fisherYatesAux js l i) l := by
  intro i
  induction i with
  | zero => intro js l; exact List.Perm.refl l
  | succ k ih =>
    intro js l
    show List.Perm (fisherYatesAux js.tail (swapList l (k+1) (js.headD 0 % (k+2))) k) l
    exact List.Perm.trans (ih js.tail _) (swapList_perm l (k+1) (js.headD 0 % (k+2)))

/-- `shuffleArray` returns a permutation of its input, whatever the
random draws were. -/
theorem shuffleArray_perm (js : List Nat) (l : List α) :
    List.Perm (shuffleArray js l) l :=
  fisherYatesAux_perm (l.length - 1) js l

end Assassin

namespace Assassin

/-! ### The assignment loop builds a ring -/

/-- A loop iteration for an index whose player differs from `pid`
leaves `pid`'s row untouched. -/
theorem getPlayerById_assignStep_ne (gid : Nat) (shuffled : List Player) (tcs : List Nat)
    (db : DB) (i : Nat) (pid : Nat)
    (hne : ∀ p, shuffled[i]? = some p → p.id ≠ pid) :
    getPlayerById (assignStep gid shuffled tcs db i) pid = getPlayerById db pid := by
  unfold assignStep
  cases hi : shuffled[i]? with
  | none => rfl
  | some p =>
    cases hq : shuffled[(i+1) % shuffled.length]? with
    | none => rfl
    | some q =>
      have hp : p.id ≠ pid := hne p hi
      dsimp only
      split
      · rw [getPlayerById_setPlayerTask, getPlayerById_setPlayerTarget, Option.map_map]
        cases ho : getPlayerById db pid with
        | none => rfl
        | some r =>
          have hr : r.id = pid := getPlayerById_id ho
          have hb : ¬ (r.id = p.id) := by
            rw [hr]
            exact fun heq => hp heq.symm
          simp [Function.comp, hb]
      · rw [getPlayerById_setPlayerTarget]
        cases ho : getPlayerById db pid with
        | none => rfl
        | some r =>
          have hr : r.id = pid := getPlayerById_id ho
          have hb : ¬ (r.id = p.id) := by
            rw [hr]
            exact fun heq => hp heq.symm
          simp [hb]

/-- The loop iteration for index `i` rewires `shuffled[i]`'s row to
`shuffled[(i+1) % n]`. -/
theorem targetOf_assignStep_self (gid : Nat) (shuffled : List Player) (tcs : List Nat)
    (db : DB) (i : Nat) (p q : Player)
    (hi : shuffled[i]? = some p) (hq : shuffled[(i+1) % shuffled.length]? = some q)
    (hsome : (getPlayerById db p.id).isSome = true) :
    targetOf (assignStep gid shuffled tcs db i) p.id = some q.id := by
  unfold assignStep
  rw [hi, hq]
  rcases Option.isSome_iff_exists.mp hsome with ⟨r, hr⟩
  have hid : r.id = p.id := getPlayerById_id hr
  dsimp only
  split
  · unfold targetOf
    rw [getPlayerById_setPlayerTask, getPlayerById_setPlayerTarget, Option.map_map, hr]
    simp [Function.comp, hid]
  · unfold targetOf
    rw [getPlayerById_setPlayerTarget, hr]
    simp [hid]

theorem getPlayerById_assignStep_isSome (gid : Nat) (shuffled : List Player) (tcs : List Nat)
    (db : DB) (i : Nat) (pid : Nat) :
    (getPlayerById (assignStep gid shuffled tcs db i) pid).isSome
      = (getPlayerById db pid).isSome := by
  unfold assignStep
  cases hi : shuffled[i]? with
  | none => rfl
  | some p =>
    cases hq : shuffled[(i+1) % shuffled.length]? with
    | none => rfl
    | some q =>
      dsimp only
      split
      · rw [getPlayerById_setPlayerTask, getPlayerById_setPlayerTarget,
          Option.isSome_map', Option.isSome_map']
      · rw [getPlayerById_setPlayerTarget, Option.isSome_map']

theorem getPlayerById_foldl_assignStep_ne (gid : Nat) (shuffled : List Player)
    (tcs : List Nat) :
    ∀ (is : List Nat) (db : DB) (pid : Nat),
      (∀ i ∈ is, ∀ p, shuffled[i]? = some p → p.id ≠ pid) →
      getPlayerById (is.foldl (assignStep gid shuffled tcs) db) pid
        = getPlayerById db pid := by
  intro is
  induction is with
  | nil => intro db pid h; rfl
  | cons i is ih =>
    intro db pid h
    rw [List.foldl_cons, ih _ _ (fun j hj => h j (List.mem_cons_of_mem _ hj))]
    exact getPlayerById_assignStep_ne gid shuffled tcs db i pid
      (h i (List.mem_cons_self i is))

theorem getPlayerById_foldl_assignStep_isSome (gid : Nat) (shuffled : List Player)
    (tcs : List Nat) :
    ∀ (is : List Nat) (db : DB) (pid : Nat),
      (getPlayerById (is.foldl (assignStep gid shuffled tcs) db) pid).isSome
        = (getPlayerById db pid).isSome := by
  intro is
  induction is with
  | nil => intro db pid; rfl
  | cons i is ih =>
    intro db pid
    rw [List.foldl_cons, ih, getPlayerById_assignStep_isSome]

/-- `List.range n` splits at any `i < n`, with everything after `i`
strictly larger. -/
theorem range_split : ∀ (n i : Nat), i < n →
    ∃ l2 : List Nat, List.range n = List.range i ++ i :: l2 ∧ ∀ j ∈ l2, i < j := by
  intro n
  induction n with
  | zero => intro i hi; omega
  | succ m ih =>
    intro i hi
    by_cases him : i < m
    · rcases ih i him with ⟨l2, hl, hgt⟩
      refine ⟨l2 ++ [m], ?_, ?_⟩
      · rw [List.range_succ, hl]
        simp
      · intro j hj
        rcases List.mem_append.mp hj with h1 | h2
        · exact hgt j h1
        · simp at h2
          omega
    · have hieq : i = m := by omega
      subst hieq
      exact ⟨[], by rw [List.range_succ], by simp⟩

end Assassin

namespace Assassin

/-- After the whole assignment loop, `shuffled[i]`'s row targets
`shuffled[(i+1) % n]` — each index is processed exactly once and later
iterations touch other players only. -/
theorem foldl_assignStep_ring (gid : Nat) (tcs : List Nat) (db : DB)
    (shuffled : List Player)
    (hsub : ∀ p ∈ shuffled, (getPlayerById db p.id).isSome = true)
    (hnd : (shuffled.map Player.id).Nodup)
    (i : Nat) (hi : i < shuffled.length) :
    targetOf ((List.range shuffled.length).foldl (assignStep gid shuffled tcs) db)
        (shuffled[i]).id
      = (shuffled[(i+1) % shuffled.length]?).map Player.id := by
  have hn : 0 < shuffled.length := Nat.lt_of_le_of_lt (Nat.zero_le i) hi
  have hm : (i+1) % shuffled.length < shuffled.length := Nat.mod_lt _ hn
  obtain ⟨l2, hsplit, hgt⟩ := range_split shuffled.length i hi
  rw [hsplit, List.foldl_append, List.foldl_cons]
  have hinj : ∀ a b, a < shuffled.length → b < shuffled.length →
      (shuffled[a]?).map Player.id = (shuffled[b]?).map Player.id → a = b := by
    intro a b ha hb hab
    rw [List.getElem?_eq_getElem ha, List.getElem?_eq_getElem hb] at hab
    simp only [Option.map_some', Option.some_inj] at hab
    have ha2 : a < (shuffled.map Player.id).length := by simpa using ha
    have hb2 : b < (shuffled.map Player.id).length := by simpa using hb
    have hmap : (shuffled.map Player.id)[a] = (shuffled.map Player.id)[b] := by
      simpa using hab
    exact (List.Nodup.getElem_inj_iff hnd).mp hmap
  have huntouched :
      getPlayerById (l2.foldl (assignStep gid shuffled tcs)
          (assignStep gid shuffled tcs
            ((List.range i).foldl (assignStep gid shuffled tcs) db) i))
          (shuffled[i]).id
        = getPlayerById (assignStep gid shuffled tcs
            ((List.range i).foldl (assignStep gid shuffled tcs) db) i)
            (shuffled[i]).id := by
    apply getPlayerById_foldl_assignStep_ne
    intro j hj p hp
    have hji : i < j := hgt j hj
    rcases List.getElem?_eq_some_iff.mp hp with ⟨hj2, hpj⟩
    intro heq
    refine (Nat.ne_of_gt hji) (hinj j i hj2 hi ?_)
    rw [List.getElem?_eq_getElem hj2, List.getElem?_eq_getElem hi]
    simp [hpj, heq]
  have htar : targetOf (l2.foldl (assignStep gid shuffled tcs)
        (assignStep gid shuffled tcs
          ((List.range i).foldl (assignStep gid shuffled tcs) db) i))
        (shuffled[i]).id
      = targetOf (assignStep gid shuffled tcs
          ((List.range i).foldl (assignStep gid shuffled tcs) db) i)
          (shuffled[i]).id := by
    unfold targetOf
    rw [huntouched]
  rw [htar, List.getElem?_eq_getElem hm]
  simp only [Option.map_some']
  refine targetOf_assignStep_self gid shuffled tcs _ i (shuffled[i])
    (shuffled[(i+1) % shuffled.length]) (List.getElem?_eq_getElem hi)
    (List.getElem?_eq_getElem hm) ?_
  rw [getPlayerById_foldl_assignStep_isSome]
  exact hsub (shuffled[i]) (List.getElem_mem hi)

/-- Iterating the target relation along a ring: starting at position
`i`, after `k` hops one sits at position `(i+k) % n`. -/
theorem followTargets_ring (db2 : DB) (shuffled : List Player)
    (htar : ∀ i (h2 : i < shuffled.length),
      targetOf db2 (shuffled[i]).id = (shuffled[(i+1) % shuffled.length]?).map Player.id)
    (i : Nat) (hi : i < shuffled.length) :
    ∀ k, followTargets db2 (shuffled[i]).id k
      = (shuffled[(i+k) % shuffled.length]?).map Player.id := by
  have hn : 0 < shuffled.length := Nat.lt_of_le_of_lt (Nat.zero_le i) hi
  intro k
  induction k with
  | zero =>
    show some (shuffled[i]).id = _
    rw [Nat.add_zero, Nat.mod_eq_of_lt hi, List.getElem?_eq_getElem hi]
    rfl
  | succ k ih =>
    have hm : (i+k) % shuffled.length < shuffled.length := Nat.mod_lt _ hn
    show (followTargets db2 (shuffled[i]).id k).bind (targetOf db2) = _
    rw [ih, List.getElem?_eq_getElem hm]
    simp only [Option.map_some', Option.some_bind]
    rw [htar _ hm, Nat.mod_add_mod]
    rfl

end Assassin

namespace Assassin

/-- **C3**: for every database with distinct player ids, every game with
at least two players, and every outcome of the random shuffle and task
draws, `assignTargets` succeeds and produces one directed cycle of
length n over the game's players: following the target relation from
any player returns to it in exactly n steps (never in fewer, so no
self-loops and no sub-cycles) and visits every player of the game
within n steps. -/
theorem c3_assignTargets_single_cycle (db : DB) (gid : Nat) (js tcs : List Nat)
    (hnd : (db.players.map Player.id).Nodup)
    (h2 : 2 ≤ (getPlayersByGame db gid).length) :
    (assignTargets db gid js tcs).2 = true ∧
    ∀ p ∈ getPlayersByGame db gid,
      (followTargets (assignTargets db gid js tcs).1 p.id
          (getPlayersByGame db gid).length = some p.id) ∧
      (∀ k, 0 < k → k < (getPlayersByGame db gid).length →
        followTargets (assignTargets db gid js tcs).1 p.id k ≠ some p.id) ∧
      (∀ q ∈ getPlayersByGame db gid, ∃ k, k < (getPlayersByGame db gid).length ∧
        followTargets (assignTargets db gid js tcs).1 p.id k = some q.id) := by
  set players := getPlayersByGame db gid with hplayers
  set shuffled := shuffleArray js players with hshuffled
  have hlt : ¬ players.length < 2 := by omega
  have heq : assignTargets db gid js tcs =
      ((List.range shuffled.length).foldl (assignStep gid shuffled tcs) db, true) := by
    unfold assignTargets
    dsimp only
    rw [if_neg hlt]
  have hperm : List.Perm shuffled players := shuffleArray_perm js players
  have hlen : shuffled.length = players.length := hperm.length_eq
  have hndp : (players.map Player.id).Nodup := by
    have hsb : List.Sublist (players.map Player.id) (db.players.map Player.id) :=
      List.Sublist.map Player.id (List.filter_sublist db.players)
    exact hsb.nodup hnd
  have hnds : (shuffled.map Player.id).Nodup :=
    ((hperm.map Player.id).symm).nodup hndp
  have hsub : ∀ p ∈ shuffled, (getPlayerById db p.id).isSome = true := by
    intro p hp
    have hp2 : p ∈ players := hperm.mem_iff.mp hp
    have hp3 : p ∈ db.players := List.mem_of_mem_filter hp2
    unfold getPlayerById
    simp only [List.find?_isSome]
    exact ⟨p, hp3, by simp⟩
  have htar : ∀ i (h3 : i < shuffled.length),
      targetOf (assignTargets db gid js tcs).1 (shuffled[i]).id
        = (shuffled[(i+1) % shuffled.length]?).map Player.id := by
    intro i h3
    rw [heq]
    exact foldl_assignStep_ring gid tcs db shuffled hsub hnds i h3
  have hinj : ∀ a b (ha : a < shuffled.length) (hb : b < shuffled.length),
      (shuffled[a]).id = (shuffled[b]).id → a = b := by
    intro a b ha hb hab
    have ha2 : a < (shuffled.map Player.id).length := by simpa using ha
    have hb2 : b < (shuffled.map Player.id).length := by simpa using hb
    have hmap : (shuffled.map Player.id)[a] = (shuffled.map Player.id)[b] := by
      simpa using hab
    exact (List.Nodup.getElem_inj_iff hnds).mp hmap
  refine ⟨by rw [heq], ?_⟩
  intro p hp
  have hpS : p ∈ shuffled := hperm.mem_iff.mpr hp
  obtain ⟨i, hi, hip⟩ := List.getElem_of_mem hpS
  have hn0 : 0 < shuffled.length := Nat.lt_of_le_of_lt (Nat.zero_le i) hi
  have hfollow := followTargets_ring (assignTargets db gid js tcs).1 shuffled htar i hi
  refine ⟨?_, ?_, ?_⟩
  · rw [← hip, ← hlen, hfollow]
    have hmod : (i + shuffled.length) % shuffled.length = i := by
      rw [Nat.add_mod_right]
      exact Nat.mod_eq_of_lt hi
    rw [hmod, List.getElem?_eq_getElem hi]
    rfl
  · intro k hk0 hkn hbad
    rw [← hip, hfollow] at hbad
    have hm : (i + k) % shuffled.length < shuffled.length := Nat.mod_lt _ hn0
    rw [List.getElem?_eq_getElem hm] at hbad
    simp only [Option.map_some', Option.some_inj] at hbad
    have hik : (i + k) % shuffled.length = i := hinj _ _ hm hi hbad
    have hkn2 : k < shuffled.length := by omega
    have hmod : (i + k) % shuffled.length = i % shuffled.length := by
      rw [hik, Nat.mod_eq_of_lt hi]
    have hcan : Nat.ModEq shuffled.length k 0 :=
      Nat.ModEq.add_left_cancel' i hmod
    have hk00 : k % shuffled.length = 0 % shuffled.length := hcan
    rw [Nat.zero_mod, Nat.mod_eq_of_lt hkn2] at hk00
    omega
  · intro q hq
    have hqS : q ∈ shuffled := hperm.mem_iff.mpr hq
    obtain ⟨j, hj, hjq⟩ := List.getElem_of_mem hqS
    by_cases hij : i ≤ j
    · refine ⟨j - i, by omega, ?_⟩
      rw [← hip, hfollow]
      have hadd : i + (j - i) = j := by omega
      rw [hadd, Nat.mod_eq_of_lt hj, List.getElem?_eq_getElem hj, hjq]
      rfl
    · refine ⟨shuffled.length + j - i, by omega, ?_⟩
      rw [← hip, hfollow]
      have hadd : i + (shuffled.length + j - i) = shuffled.length + j := by omega
      rw [hadd, Nat.add_mod_left, Nat.mod_eq_of_lt hj, List.getElem?_eq_getElem hj, hjq]
      rfl

/-- Witness for C3 at a concrete input: the waiting three-player game,
shuffle oracle `[0, 0]`, evaluated for player 1. -/
theorem c3_witness :
    (assignTargets db3waiting 1 [0, 0] []).2 = true ∧
    (followTargets (assignTargets db3waiting 1 [0, 0] []).1 1 3 = some 1) ∧
    (∀ k, 0 < k → k < 3 →
      followTargets (assignTargets db3waiting 1 [0, 0] []).1 1 k ≠ some 1) ∧
    (∀ q ∈ getPlayersByGame db3waiting 1, ∃ k, k < 3 ∧
      followTargets (assignTargets db3waiting 1 [0, 0] []).1 1 k = some q.id) := by
  have h := c3_assignTargets_single_cycle db3waiting 1 [0, 0] [] (by decide) (by decide)
  have hps := h.2 ⟨1, 1, 11, none, true, 0, none⟩ (by decide)
  exact ⟨h.1, hps.1, hps.2.1, hps.2.2⟩

end Assassin
